import Mathlib

/-!
Verification of the transformation-graph assembly and rendering pipeline of
`api_li3ds` (file `api_li3ds/apis/platform.py`), together with the
single-platform GET/DELETE endpoints.

The relational store (`li3ds` schema) is embedded as explicit lists of rows;
each SQL query of the source is translated row-by-row into list operations
(`filter` for `where`, `flatMap` for joins and `unnest`, `dedup` for
`select distinct`).  The graphviz `Digraph` is embedded as the list of
`node`/`edge` statements the Python code emits, and `dot.pipe("png")` as an
abstract function from statement lists to bytes.
-/

/-- A row of `li3ds.platform` (columns used by the endpoints). -/
structure Platform where
  id : Int
  name : String
  description : String
deriving DecidableEq, Repr

/-- A row of `li3ds.platform_config` (columns used by the preview query). -/
structure PlatformConfig where
  id : Int
  name : String
  owner : String
  platform : Int
  transfo_trees : List Int
deriving DecidableEq, Repr

/-- A row of `li3ds.transfo_tree` (columns used by the preview query:
`tt.id`, `tt.transfos`, `sensor_connections`). -/
structure TransfoTree where
  id : Int
  transfos : List Int
  sensor_connections : Bool
deriving DecidableEq, Repr

/-- A row of `li3ds.transfo` (columns used by the preview query:
`t.id`, `t.source`, `t.target`, `transfo_type`). -/
structure Transfo where
  id : Int
  source : Int
  target : Int
  transfo_type : Int
deriving DecidableEq, Repr

/-- A row of `li3ds.referential` (columns used by the preview query:
`id`, `name`, `root`). -/
structure Referential where
  id : Int
  name : String
  root : Bool
deriving DecidableEq, Repr

/-- The relational store: one list of rows per `li3ds` table. -/
structure Storage where
  platforms : List Platform
  platform_configs : List PlatformConfig
  transfo_trees : List TransfoTree
  transfos : List Transfo
  referentials : List Referential
deriving Repr

/-- A row of the edge query result:
`select distinct t.id, t.source, t.target, transfo_type, p.sc`. -/
structure EdgeRow where
  id : Int
  source : Int
  target : Int
  transfo_type : Int
  sc : Bool
deriving DecidableEq, Repr

/-- The CTE `tmp` of the preview query:

    select unnest(tt.transfos) as tid, sensor_connections as sc
    from li3ds.platform_config pf
    join li3ds.transfo_tree tt on tt.id = ANY(pf.transfo_trees)
    where pf.id = %s

Each matching `(pf, tt)` join pair contributes one `(tid, sc)` row per
element of `tt.transfos`. -/
def tmpRows (db : Storage) (cid : Int) : List (Int × Bool) :=
  (db.platform_configs.filter (fun pf => decide (pf.id = cid))).flatMap (fun pf =>
    (db.transfo_trees.filter (fun tt => decide (tt.id ∈ pf.transfo_trees))).flatMap (fun tt =>
      tt.transfos.map (fun tid => (tid, tt.sensor_connections))))

/-- The edge query of `PlatformConfigPreview.get`:

    select distinct t.id, t.source, t.target, transfo_type, p.sc
    from tmp p
    join li3ds.transfo t on t.id = p.tid

`select distinct` deduplicates whole result rows. -/
def previewEdges (db : Storage) (cid : Int) : List EdgeRow :=
  ((tmpRows db cid).flatMap (fun p =>
    (db.transfos.filter (fun t => decide (t.id = p.1))).map (fun t =>
      ⟨t.id, t.source, t.target, t.transfo_type, p.2⟩))).dedup

/-- The Python set `urefs`, built by iterating over the edges and adding
`edge.source` and `edge.target`. -/
def urefsOf (edges : List EdgeRow) : Finset Int :=
  edges.foldl (fun s e => insert e.target (insert e.source s)) ∅

/-- The node query of `PlatformConfigPreview.get`:

    select distinct id, name, root
    from li3ds.referential where ARRAY[id] <@ %s

with the parameter `list(urefs)`; `ARRAY[id] <@ xs` holds iff `id` is a
member of `xs`. -/
def previewNodes (db : Storage) (cid : Int) : List Referential :=
  (db.referentials.filter (fun r => decide (r.id ∈ urefsOf (previewEdges db cid)))).dedup

/-- A statement emitted on the graphviz `Digraph`: `dot.node(name, label,
color)` or `dot.edge(src, tgt, label, color)`; `none` means the default
color (no `color` keyword passed). -/
inductive DotStmt where
  | node (name label : String) (color : Option String)
  | edge (src tgt label : String) (color : Option String)
deriving DecidableEq, Repr

/-- The label `'{}\n({})'.format(node.name, node.id)` of a node. -/
def nodeLabel (n : Referential) : String :=
  n.name ++ "\n(" ++ toString n.id ++ ")"

/-- The two `for` loops of `PlatformConfigPreview.get` over `nodes` and
`edges`: each node row emits one `dot.node` statement (`color='red'` iff
`node.root`), then each edge row emits one `dot.edge` statement
(`color='blue'` iff `edge.sc`). -/
def dotStmts (nodes : List Referential) (edges : List EdgeRow) : List DotStmt :=
  nodes.map (fun node =>
    if node.root then
      DotStmt.node (toString node.id) (nodeLabel node) (some "red")
    else
      DotStmt.node (toString node.id) (nodeLabel node) none)
  ++ edges.map (fun edge =>
    if edge.sc then
      DotStmt.edge (toString edge.source) (toString edge.target) (toString edge.id) (some "blue")
    else
      DotStmt.edge (toString edge.source) (toString edge.target) (toString edge.id) none)

/-- An HTTP response as produced by `make_response`: status code,
`content-type` header, and body bytes. -/
structure Response where
  status : Nat
  contentType : Option String
  body : List Nat
deriving DecidableEq, Repr

/-- `PlatformConfigPreview.get`: assemble the edge and node rows, emit the
graphviz statements, rasterize them with the rendering backend `pipe`
(abstracted as a function from statement lists to bytes), and wrap the
bytes in a 200 response with content-type `image/png`.  The function has no
abort path. -/
def previewGet (pipe : List DotStmt → List Nat) (db : Storage) (cid : Int) : Response :=
  let edges := previewEdges db cid
  let nodes := previewNodes db cid
  { status := 200, contentType := some "image/png", body := pipe (dotStmts nodes edges) }

/-- The result of a flask-restplus handler: either `abort(status, message)`
or a normal return value. -/
inductive Handler (α : Type) where
  | abort (status : Nat) (message : String)
  | ok (value : α)
deriving DecidableEq, Repr

/-- `OnePlatform.get`: `select * from li3ds.platform where id=%s`; abort 410
when the result is empty, otherwise return the rows. -/
def onePlatformGet (db : Storage) (pid : Int) : Handler (List Platform) :=
  let res := db.platforms.filter (fun p => decide (p.id = pid))
  if res.isEmpty then Handler.abort 410 "Platform not found"
  else Handler.ok res

/-- `OnePlatform.delete`: `delete from li3ds.platform where id=%s`; abort
410 when the rowcount is zero, otherwise return the updated storage and
`('', 204)`. -/
def onePlatformDelete (db : Storage) (pid : Int) : Handler (Storage × String × Nat) :=
  let res := (db.platforms.filter (fun p => decide (p.id = pid))).length
  if res = 0 then Handler.abort 410 "Platform not found"
  else Handler.ok ({ db with platforms := db.platforms.filter (fun p => !decide (p.id = pid)) }, "", 204)

/-- Membership in the CTE `tmp`: a `(tid, sc)` row exists iff some config
row with the requested id has a tree containing `tid` whose
`sensor_connections` is `sc`. -/
theorem mem_tmpRows (db : Storage) (cid : Int) (p : Int × Bool) :
    p ∈ tmpRows db cid ↔
      ∃ pf ∈ db.platform_configs, pf.id = cid ∧
        ∃ tt ∈ db.transfo_trees, tt.id ∈ pf.transfo_trees ∧
          p.1 ∈ tt.transfos ∧ p.2 = tt.sensor_connections := by
  simp only [tmpRows, List.mem_flatMap, List.mem_filter, List.mem_map,
    decide_eq_true_eq]
  constructor
  · rintro ⟨pf, ⟨hpf, hid⟩, tt, ⟨htt, hmem⟩, tid, htid, rfl⟩
    exact ⟨pf, hpf, hid, tt, htt, hmem, htid, rfl⟩
  · rintro ⟨pf, hpf, hid, tt, htt, hmem, htid, hsc⟩
    exact ⟨pf, ⟨hpf, hid⟩, tt, ⟨htt, hmem⟩, p.1, htid, by cases p; simp_all⟩

/-- Membership in the edge query result: a row exists iff some config row
with the requested id has a tree containing a transformation id that
resolves to a `transfo` row; the row carries the `transfo` columns and the
tree's `sensor_connections` flag. -/
theorem mem_previewEdges (db : Storage) (cid : Int) (r : EdgeRow) :
    r ∈ previewEdges db cid ↔
      ∃ pf ∈ db.platform_configs, pf.id = cid ∧
        ∃ tt ∈ db.transfo_trees, tt.id ∈ pf.transfo_trees ∧
          ∃ t ∈ db.transfos, t.id ∈ tt.transfos ∧
            r = ⟨t.id, t.source, t.target, t.transfo_type, tt.sensor_connections⟩ := by
  simp only [previewEdges, List.mem_dedup, List.mem_flatMap, List.mem_filter,
    List.mem_map, decide_eq_true_eq]
  constructor
  · rintro ⟨p, hp, t, ⟨ht, hid⟩, rfl⟩
    rw [mem_tmpRows] at hp
    obtain ⟨pf, hpf, hcid, tt, htt, hmem, htid, hsc⟩ := hp
    refine ⟨pf, hpf, hcid, tt, htt, hmem, t, ht, ?_, by rw [hsc]⟩
    rwa [hid]
  · rintro ⟨pf, hpf, hcid, tt, htt, hmem, t, ht, htid, rfl⟩
    refine ⟨(t.id, tt.sensor_connections), ?_, t, ⟨ht, rfl⟩, rfl⟩
    rw [mem_tmpRows]
    exact ⟨pf, hpf, hcid, tt, htt, hmem, htid, rfl⟩

theorem mem_urefs_foldl (edges : List EdgeRow) (s : Finset Int) (x : Int) :
    x ∈ edges.foldl (fun s e => insert e.target (insert e.source s)) s ↔
      x ∈ s ∨ ∃ e ∈ edges, x = e.source ∨ x = e.target := by
  induction edges generalizing s with
  | nil => simp
  | cons e es ih =>
    simp only [List.foldl_cons, ih, Finset.mem_insert, List.mem_cons]
    constructor
    · rintro (⟨rfl | rfl | hs⟩ | ⟨e', he', h⟩)
      · exact Or.inr ⟨e, Or.inl rfl, Or.inr rfl⟩
      · exact Or.inr ⟨e, Or.inl rfl, Or.inl rfl⟩
      · exact Or.inl hs
      · exact Or.inr ⟨e', Or.inr he', h⟩
    · rintro (hs | ⟨e', rfl | he', h⟩)
      · exact Or.inl (Or.inr (Or.inr hs))
      · rcases h with rfl | rfl
        · exact Or.inl (Or.inr (Or.inl rfl))
        · exact Or.inl (Or.inl rfl)
      · exact Or.inr ⟨e', he', h⟩

/-- Membership in the Python set `urefs`: exactly the sources and targets
of the edge rows. -/
theorem mem_urefsOf (edges : List EdgeRow) (x : Int) :
    x ∈ urefsOf edges ↔ ∃ e ∈ edges, x = e.source ∨ x = e.target := by
  simp [urefsOf, mem_urefs_foldl]

/-- Membership in the node query result: the referential rows whose id is a
source or target of some edge row. -/
theorem mem_previewNodes (db : Storage) (cid : Int) (r : Referential) :
    r ∈ previewNodes db cid ↔
      r ∈ db.referentials ∧ ∃ e ∈ previewEdges db cid, r.id = e.source ∨ r.id = e.target := by
  simp [previewNodes, List.mem_dedup, List.mem_filter, mem_urefsOf]

theorem mem_dotStmts_node (nodes : List Referential) (edges : List EdgeRow)
    (n : Referential) (hn : n ∈ nodes) :
    DotStmt.node (toString n.id) (n.name ++ "\n(" ++ toString n.id ++ ")")
      (if n.root then some "red" else none) ∈ dotStmts nodes edges := by
  apply List.mem_append_left
  simp only [List.mem_map]
  exact ⟨n, hn, by cases hr : n.root <;> simp [hr, nodeLabel]⟩

theorem mem_dotStmts_edge (nodes : List Referential) (edges : List EdgeRow)
    (e : EdgeRow) (he : e ∈ edges) :
    DotStmt.edge (toString e.source) (toString e.target) (toString e.id)
      (if e.sc then some "blue" else none) ∈ dotStmts nodes edges := by
  apply List.mem_append_right
  simp only [List.mem_map]
  exact ⟨e, he, by cases hs : e.sc <;> simp [hs]⟩

theorem dotStmts_cases (nodes : List Referential) (edges : List EdgeRow)
    (s : DotStmt) (hs : s ∈ dotStmts nodes edges) :
    (∃ n ∈ nodes, s = DotStmt.node (toString n.id) (n.name ++ "\n(" ++ toString n.id ++ ")")
        (if n.root then some "red" else none)) ∨
    (∃ e ∈ edges, s = DotStmt.edge (toString e.source) (toString e.target) (toString e.id)
        (if e.sc then some "blue" else none)) := by
  rcases List.mem_append.mp hs with h | h
  · obtain ⟨n, hn, rfl⟩ := List.mem_map.mp h
    exact Or.inl ⟨n, hn, by cases hr : n.root <;> simp [hr, nodeLabel]⟩
  · obtain ⟨e, he, rfl⟩ := List.mem_map.mp h
    exact Or.inr ⟨e, he, by cases hc : e.sc <;> simp [hc]⟩

/-- C3: in the emitted graph description, every node with `root = true` is
drawn in red and every other node in the default color; every edge with the
sensor-connection flag is drawn in blue and every other edge in the default
color; every node is labeled with its name, a newline, and its id in
parentheses, and every edge is labeled with its transformation id; and
nothing else is emitted. -/
theorem render_visual_policy (nodes : List Referential) (edges : List EdgeRow) :
    (∀ n ∈ nodes,
      DotStmt.node (toString n.id) (n.name ++ "\n(" ++ toString n.id ++ ")")
        (if n.root then some "red" else none) ∈ dotStmts nodes edges) ∧
    (∀ e ∈ edges,
      DotStmt.edge (toString e.source) (toString e.target) (toString e.id)
        (if e.sc then some "blue" else none) ∈ dotStmts nodes edges) ∧
    (∀ s ∈ dotStmts nodes edges,
      (∃ n ∈ nodes, s = DotStmt.node (toString n.id) (n.name ++ "\n(" ++ toString n.id ++ ")")
          (if n.root then some "red" else none)) ∨
      (∃ e ∈ edges, s = DotStmt.edge (toString e.source) (toString e.target) (toString e.id)
          (if e.sc then some "blue" else none))) :=
  ⟨fun n hn => mem_dotStmts_node nodes edges n hn,
   fun e he => mem_dotStmts_edge nodes edges e he,
   fun s hs => dotStmts_cases nodes edges s hs⟩

/-- C3 witness: the policy evaluated on one root node, one non-root node and
one sensor-connection edge. -/
theorem render_visual_policy_witness :
    DotStmt.node (toString (1 : Int)) ("base" ++ "\n(" ++ toString (1 : Int) ++ ")")
      (if (true : Bool) then some "red" else none) ∈
        dotStmts [⟨1, "base", true⟩, ⟨2, "cam", false⟩] [⟨10, 1, 2, 0, true⟩] ∧
    DotStmt.edge (toString (1 : Int)) (toString (2 : Int)) (toString (10 : Int))
      (if (true : Bool) then some "blue" else none) ∈
        dotStmts [⟨1, "base", true⟩, ⟨2, "cam", false⟩] [⟨10, 1, 2, 0, true⟩] :=
  ⟨(render_visual_policy [⟨1, "base", true⟩, ⟨2, "cam", false⟩] [⟨10, 1, 2, 0, true⟩]).1
      ⟨1, "base", true⟩ (by decide),
   (render_visual_policy [⟨1, "base", true⟩, ⟨2, "cam", false⟩] [⟨10, 1, 2, 0, true⟩]).2.1
      ⟨10, 1, 2, 0, true⟩ (by decide)⟩

/-- Storage for C6: configuration 7 has one tree containing transformation
12, whose target referential 103 has no row in `li3ds.referential`. -/
def dbC6 : Storage :=
  { platforms := []
    platform_configs := [⟨7, "cfg", "me", 1, [1]⟩]
    transfo_trees := [⟨1, [12], false⟩]
    transfos := [⟨12, 102, 103, 0⟩]
    referentials := [⟨102, "r102", false⟩] }

/-- A concrete rendering backend: returns the number of emitted graphviz
statements as the single byte of the image. -/
def pipeLen : List DotStmt → List Nat := fun stmts => [stmts.length]

/-- C6 counterexample: edge 12 references referential 103, which is absent
from storage; the request nevertheless succeeds with status 200, the edge
is still handed to the renderer (the body counts 2 statements: 1 node and
1 edge), and the node set silently lacks 103 — no data-integrity fault is
raised. -/
theorem missing_endpoint_counterexample :
    previewEdges dbC6 7 = [⟨12, 102, 103, 0, false⟩] ∧
    (previewNodes dbC6 7).map Referential.id = [102] ∧
    previewGet pipeLen dbC6 7 = ⟨200, some "image/png", [2]⟩ := by
  decide

/-- C6 amended: the preview request never fails — it always returns status
200 with content-type `image/png` — and every assembled edge is emitted to
the renderer, whether or not its endpoints resolve to referential rows; an
unresolved endpoint yields no labeled node statement (graphviz silently
auto-creates a bare node), and the edge is never dropped. -/
theorem preview_never_faults (pipe : List DotStmt → List Nat) (db : Storage) (cid : Int) :
    (previewGet pipe db cid).status = 200 ∧
    (previewGet pipe db cid).contentType = some "image/png" ∧
    ∀ e ∈ previewEdges db cid,
      DotStmt.edge (toString e.source) (toString e.target) (toString e.id)
        (if e.sc then some "blue" else none) ∈
          dotStmts (previewNodes db cid) (previewEdges db cid) :=
  ⟨rfl, rfl, fun e he => mem_dotStmts_edge (previewNodes db cid) (previewEdges db cid) e he⟩

/-- C6 witness: the amended statement evaluated on the C6 storage, where
edge 12 has an unresolved target. -/
theorem preview_never_faults_witness :
    (previewGet pipeLen dbC6 7).status = 200 ∧
    DotStmt.edge (toString (102 : Int)) (toString (103 : Int)) (toString (12 : Int))
      (if (false : Bool) then some "blue" else none) ∈
        dotStmts (previewNodes dbC6 7) (previewEdges dbC6 7) :=
  ⟨(preview_never_faults pipeLen dbC6 7).1,
   (preview_never_faults pipeLen dbC6 7).2.2 ⟨12, 102, 103, 0, false⟩ (by decide)⟩

theorem previewEdges_eq_nil (db : Storage) (cid : Int)
    (h : (∀ pf ∈ db.platform_configs, pf.id ≠ cid) ∨
         (∀ pf ∈ db.platform_configs, pf.id = cid →
           ∀ tt ∈ db.transfo_trees, tt.id ∉ pf.transfo_trees) ∨
         (∀ pf ∈ db.platform_configs, pf.id = cid →
           ∀ tt ∈ db.transfo_trees, tt.id ∈ pf.transfo_trees → tt.transfos = [])) :
    previewEdges db cid = [] := by
  rw [List.eq_nil_iff_forall_not_mem]
  intro r hr
  rw [mem_previewEdges] at hr
  obtain ⟨pf, hpf, hcid, tt, htt, hmem, t, ht, htid, hrw⟩ := hr
  rcases h with h | h | h
  · exact h pf hpf hcid
  · exact h pf hpf hcid tt htt hmem
  · rw [h pf hpf hcid tt htt hmem] at htid
    exact List.not_mem_nil t.id htid

theorem previewNodes_eq_nil (db : Storage) (cid : Int)
    (h : previewEdges db cid = []) :
    previewNodes db cid = [] := by
  rw [List.eq_nil_iff_forall_not_mem]
  intro r hr
  rw [mem_previewNodes, h] at hr
  obtain ⟨-, e, he, -⟩ := hr
  exact List.not_mem_nil e he

/-- C4: if the configuration identifier matches no stored configuration
row, the assembler returns an empty edge set and consequently an empty node
set, and the endpoint still answers with a 200 response — an empty graph,
not an error. -/
theorem preview_absent_config (pipe : List DotStmt → List Nat) (db : Storage) (cid : Int)
    (h : ∀ pf ∈ db.platform_configs, pf.id ≠ cid) :
    previewEdges db cid = [] ∧ previewNodes db cid = [] ∧
    previewGet pipe db cid = ⟨200, some "image/png", pipe []⟩ := by
  have he : previewEdges db cid = [] := previewEdges_eq_nil db cid (Or.inl h)
  have hn : previewNodes db cid = [] := previewNodes_eq_nil db cid he
  refine ⟨he, hn, ?_⟩
  simp [previewGet, he, hn, dotStmts]

/-- Storage for the C4 witness: one configuration with id 1. -/
def dbC4 : Storage :=
  { platforms := []
    platform_configs := [⟨1, "cfg", "me", 1, [1]⟩]
    transfo_trees := [⟨1, [10], false⟩]
    transfos := [⟨10, 100, 101, 0⟩]
    referentials := [⟨100, "a", true⟩, ⟨101, "b", false⟩] }

/-- C4 witness: requesting the absent configuration id 99 yields the empty
graph and a 200 response. -/
theorem preview_absent_config_witness :
    previewEdges dbC4 99 = [] ∧ previewNodes dbC4 99 = [] ∧
    previewGet pipeLen dbC4 99 = ⟨200, some "image/png", pipeLen []⟩ :=
  preview_absent_config pipeLen dbC4 99 (by decide)

/-- C9: for a configuration id with no matching trees or no transformations
(including an id absent from storage), the endpoint still invokes the
rendering backend — on the empty statement list — and returns its bytes as
a 200 response with content-type `image/png`; it never signals an explicit
not-found. -/
theorem preview_empty_graph_success (pipe : List DotStmt → List Nat) (db : Storage) (cid : Int)
    (h : (∀ pf ∈ db.platform_configs, pf.id ≠ cid) ∨
         (∀ pf ∈ db.platform_configs, pf.id = cid →
           ∀ tt ∈ db.transfo_trees, tt.id ∉ pf.transfo_trees) ∨
         (∀ pf ∈ db.platform_configs, pf.id = cid →
           ∀ tt ∈ db.transfo_trees, tt.id ∈ pf.transfo_trees → tt.transfos = [])) :
    dotStmts (previewNodes db cid) (previewEdges db cid) = [] ∧
    previewGet pipe db cid = ⟨200, some "image/png", pipe []⟩ := by
  have he : previewEdges db cid = [] := previewEdges_eq_nil db cid h
  have hn : previewNodes db cid = [] := previewNodes_eq_nil db cid he
  constructor
  · simp [he, hn, dotStmts]
  · simp [previewGet, he, hn, dotStmts]

/-- Storage for the C9 witness: configuration 3 exists but references no
tree present in storage. -/
def dbC9 : Storage :=
  { platforms := []
    platform_configs := [⟨3, "cfg", "me", 1, [8]⟩]
    transfo_trees := [⟨1, [10], false⟩]
    transfos := [⟨10, 100, 101, 0⟩]
    referentials := [⟨100, "a", true⟩] }

/-- C9 witness: a configuration with no matching trees renders the empty
graph as a 200 `image/png` response. -/
theorem preview_empty_graph_success_witness :
    dotStmts (previewNodes dbC9 3) (previewEdges dbC9 3) = [] ∧
    previewGet pipeLen dbC9 3 = ⟨200, some "image/png", pipeLen []⟩ :=
  preview_empty_graph_success pipeLen dbC9 3 (Or.inr (Or.inl (by decide)))

/-- C8: every assembled edge row carries the `sensor_connections` flag of a
transformation tree of the configuration that contains it (not a column of
the `transfo` row); consequently a transformation contained in two trees
whose flags differ produces one distinct result row per flag value. -/
theorem edge_flag_from_tree (db : Storage) (cid : Int) :
    (∀ r ∈ previewEdges db cid,
      ∃ pf ∈ db.platform_configs, pf.id = cid ∧
        ∃ tt ∈ db.transfo_trees, tt.id ∈ pf.transfo_trees ∧
          r.id ∈ tt.transfos ∧ r.sc = tt.sensor_connections) ∧
    (∀ pf ∈ db.platform_configs, pf.id = cid →
      ∀ tt1 ∈ db.transfo_trees, tt1.id ∈ pf.transfo_trees →
      ∀ tt2 ∈ db.transfo_trees, tt2.id ∈ pf.transfo_trees →
      ∀ t ∈ db.transfos, t.id ∈ tt1.transfos → t.id ∈ tt2.transfos →
      tt1.sensor_connections = true → tt2.sensor_connections = false →
        (∃ r ∈ previewEdges db cid, r.id = t.id ∧ r.sc = true) ∧
        (∃ r ∈ previewEdges db cid, r.id = t.id ∧ r.sc = false)) := by
  constructor
  · intro r hr
    rw [mem_previewEdges] at hr
    obtain ⟨pf, hpf, hcid, tt, htt, hmem, t, ht, htid, rfl⟩ := hr
    exact ⟨pf, hpf, hcid, tt, htt, hmem, htid, rfl⟩
  · intro pf hpf hcid tt1 htt1 hmem1 tt2 htt2 hmem2 t ht htid1 htid2 hsc1 hsc2
    constructor
    · refine ⟨⟨t.id, t.source, t.target, t.transfo_type, tt1.sensor_connections⟩, ?_, rfl, hsc1⟩
      rw [mem_previewEdges]
      exact ⟨pf, hpf, hcid, tt1, htt1, hmem1, t, ht, htid1, rfl⟩
    · refine ⟨⟨t.id, t.source, t.target, t.transfo_type, tt2.sensor_connections⟩, ?_, rfl, hsc2⟩
      rw [mem_previewEdges]
      exact ⟨pf, hpf, hcid, tt2, htt2, hmem2, t, ht, htid2, rfl⟩

/-- Storage for C8 and C2: configuration 7 has trees 1 and 2; both contain
transformation 11, tree 1 with `sensor_connections = false` and tree 2 with
`sensor_connections = true`. -/
def dbTwoTrees : Storage :=
  { platforms := []
    platform_configs := [⟨7, "cfg", "me", 1, [1, 2]⟩]
    transfo_trees := [⟨1, [10, 11], false⟩, ⟨2, [11, 12], true⟩]
    transfos := [⟨10, 100, 101, 0⟩, ⟨11, 101, 102, 0⟩, ⟨12, 102, 103, 0⟩]
    referentials := [⟨100, "a", true⟩, ⟨101, "b", false⟩, ⟨102, "c", false⟩, ⟨103, "d", false⟩] }

/-- C8 witness: on `dbTwoTrees`, transformation 11 sits in tree 2 with flag
`true` and in tree 1 with flag `false`, and the result contains one row per
flag value. -/
theorem edge_flag_from_tree_witness :
    (∃ r ∈ previewEdges dbTwoTrees 7, r.id = (11 : Int) ∧ r.sc = true) ∧
    (∃ r ∈ previewEdges dbTwoTrees 7, r.id = (11 : Int) ∧ r.sc = false) :=
  (edge_flag_from_tree dbTwoTrees 7).2 ⟨7, "cfg", "me", 1, [1, 2]⟩ (by decide) rfl
    ⟨2, [11, 12], true⟩ (by decide) (by decide)
    ⟨1, [10, 11], false⟩ (by decide) (by decide)
    ⟨11, 101, 102, 0⟩ (by decide) (by decide) (by decide) rfl rfl

/-- C2 counterexample: on `dbTwoTrees`, transformation 11 is contained in
both trees of configuration 7, whose `sensor_connections` flags differ, and
the assembled edge list contains two rows with id 11 — not exactly one. -/
theorem edge_dedup_counterexample :
    (previewEdges dbTwoTrees 7).countP (fun r => decide (r.id = 11)) = 2 := by
  decide

/-- C2 amended: deduplication is by whole result row `(id, source, target,
transfo_type, sensor-flag)`, not by transformation id alone: the assembled
edge list has no duplicate rows, and — when transformation ids are unique
in storage — any two rows sharing a transformation id and a flag value are
the same row.  Hence a transformation contained in two trees with equal
flags appears exactly once, and one contained in trees with differing flags
appears once per flag value. -/
theorem edge_dedup_by_row (db : Storage) (cid : Int)
    (hids : (db.transfos.map Transfo.id).Nodup) :
    (previewEdges db cid).Nodup ∧
    ∀ r1 ∈ previewEdges db cid, ∀ r2 ∈ previewEdges db cid,
      r1.id = r2.id → r1.sc = r2.sc → r1 = r2 := by
  refine ⟨List.nodup_dedup _, ?_⟩
  intro r1 h1 r2 h2 hid hsc
  rw [mem_previewEdges] at h1 h2
  obtain ⟨pf1, hpf1, hcid1, tt1, htt1, hmem1, t1, ht1, htid1, rfl⟩ := h1
  obtain ⟨pf2, hpf2, hcid2, tt2, htt2, hmem2, t2, ht2, htid2, rfl⟩ := h2
  dsimp only at hid hsc
  have ht12 : t1 = t2 := List.inj_on_of_nodup_map hids ht1 ht2 hid
  subst ht12
  rw [hsc]

/-- C2 witness: the amended statement evaluated on `dbTwoTrees`, whose
transformation ids are unique. -/
theorem edge_dedup_by_row_witness :
    (previewEdges dbTwoTrees 7).Nodup ∧
    ∀ r1 ∈ previewEdges dbTwoTrees 7, ∀ r2 ∈ previewEdges dbTwoTrees 7,
      r1.id = r2.id → r1.sc = r2.sc → r1 = r2 :=
  edge_dedup_by_row dbTwoTrees 7 (by decide)

/-- Storage for the C1 counterexample: edge 12 targets referential 103,
which has no row in `li3ds.referential`. -/
def dbC1 : Storage :=
  { platforms := []
    platform_configs := [⟨7, "cfg", "me", 1, [1]⟩]
    transfo_trees := [⟨1, [12], false⟩]
    transfos := [⟨12, 102, 103, 0⟩]
    referentials := [⟨102, "c", false⟩] }

/-- C1 counterexample: on `dbC1` the assembled edge set is `{12}` with
endpoints 102 and 103, but the assembled node set is `{102}` — edge 12's
target id 103 is not present in the node set, so the node set does not
equal the union of sources and targets. -/
theorem nodes_eq_endpoints_counterexample :
    previewEdges dbC1 7 = [⟨12, 102, 103, 0, false⟩] ∧
    ((previewNodes dbC1 7).map Referential.id).toFinset = ({102} : Finset Int) ∧
    (103 : Int) ∉ (previewNodes dbC1 7).map Referential.id := by
  decide

/-- C1 amended: when every endpoint id of the assembled edges resolves to a
referential row in storage, the assembled node id set equals the union of
`source`/`target` over the edge set; unconditionally, the node set contains
no id absent from that union (no orphan nodes). -/
theorem nodes_eq_endpoint_union (db : Storage) (cid : Int) :
    ((∀ e ∈ previewEdges db cid,
        (∃ r ∈ db.referentials, r.id = e.source) ∧ (∃ r ∈ db.referentials, r.id = e.target)) →
      ((previewNodes db cid).map Referential.id).toFinset =
        (previewEdges db cid).toFinset.biUnion (fun e => insert e.source {e.target})) ∧
    ∀ n ∈ previewNodes db cid,
      n.id ∈ (previewEdges db cid).toFinset.biUnion (fun e => insert e.source {e.target}) := by
  have hU : ∀ x : Int,
      x ∈ (previewEdges db cid).toFinset.biUnion (fun e => insert e.source {e.target}) ↔
        ∃ e ∈ previewEdges db cid, x = e.source ∨ x = e.target := by
    intro x
    simp [Finset.mem_biUnion, List.mem_toFinset, Finset.mem_insert, Finset.mem_singleton]
  constructor
  · intro h
    ext x
    rw [hU]
    simp only [List.mem_toFinset, List.mem_map]
    constructor
    · rintro ⟨n, hn, rfl⟩
      exact ((mem_previewNodes db cid n).mp hn).2
    · rintro ⟨e, he, hx⟩
      rcases hx with rfl | rfl
      · obtain ⟨r, hr, hrid⟩ := (h e he).1
        exact ⟨r, (mem_previewNodes db cid r).mpr ⟨hr, e, he, Or.inl hrid⟩, hrid⟩
      · obtain ⟨r, hr, hrid⟩ := (h e he).2
        exact ⟨r, (mem_previewNodes db cid r).mpr ⟨hr, e, he, Or.inr hrid⟩, hrid⟩
  · intro n hn
    rw [hU]
    exact ((mem_previewNodes db cid n).mp hn).2

/-- Storage for the C1 witness: like `dbC1` but with referential 103
present, so every endpoint resolves. -/
def dbC1W : Storage :=
  { platforms := []
    platform_configs := [⟨7, "cfg", "me", 1, [1]⟩]
    transfo_trees := [⟨1, [12], false⟩]
    transfos := [⟨12, 102, 103, 0⟩]
    referentials := [⟨102, "c", false⟩, ⟨103, "d", false⟩] }

/-- C1 witness: on `dbC1W` every endpoint resolves and the node id set
equals the endpoint union `{102, 103}`. -/
theorem nodes_eq_endpoint_union_witness :
    ((previewNodes dbC1W 7).map Referential.id).toFinset =
      (previewEdges dbC1W 7).toFinset.biUnion (fun e => insert e.source {e.target}) :=
  (nodes_eq_endpoint_union dbC1W 7).1 (by decide)

/-- Scenario A of the spec, realized in the code's schema: configuration 7
with trees `[1, 2]`, tree 1 containing transformations 10 and 11, tree 2
containing 11 and 12, and transformation records `10:(100 → 101)`,
`11:(101 → 102)`, `12:(102 → 103)`.  The code stores the sensor-connection
flag on the tree (`transfo_tree.sensor_connections`), not on the
transformation record, so the flags are the parameters `a` (tree 1) and `b`
(tree 2). -/
def scenarioA (a b : Bool) : Storage :=
  { platforms := []
    platform_configs := [⟨7, "scenario", "owner", 1, [1, 2]⟩]
    transfo_trees := [⟨1, [10, 11], a⟩, ⟨2, [11, 12], b⟩]
    transfos := [⟨10, 100, 101, 0⟩, ⟨11, 101, 102, 0⟩, ⟨12, 102, 103, 0⟩]
    referentials := [⟨100, "r100", false⟩, ⟨101, "r101", false⟩,
                     ⟨102, "r102", false⟩, ⟨103, "r103", false⟩] }

/-- The set of transformation ids drawn in the distinguishing
sensor-connection color for configuration 7 of a storage. -/
def blueIds (db : Storage) : Finset Int :=
  (((previewEdges db 7).filter (fun r => r.sc)).map (fun r => r.id)).toFinset

/-- C5 counterexample: the sensor-connection flag lives on the tree, so in
every realization of scenario A's data the blue edge set is determined by
the two tree flags — it is `∅`, `{10, 11}`, `{11, 12}` or `{10, 11, 12}` —
and is never exactly `{11}` as the claim requires. -/
theorem scenarioA_counterexample :
    blueIds (scenarioA false false) = (∅ : Finset Int) ∧
    blueIds (scenarioA true false) = ({10, 11} : Finset Int) ∧
    blueIds (scenarioA false true) = ({11, 12} : Finset Int) ∧
    blueIds (scenarioA true true) = ({10, 11, 12} : Finset Int) := by
  decide

/-- C5 amended: for every realization of scenario A (any assignment of the
two tree-level sensor-connection flags), assembling configuration 7 yields
exactly the node set `{100, 101, 102, 103}` and the edge id set
`{10, 11, 12}`; but the set of edges given the distinguishing color is the
union of the trees whose flag is set, and in no realization is it exactly
edge 11. -/
theorem scenarioA_assembly (a b : Bool) :
    ((previewNodes (scenarioA a b) 7).map Referential.id).toFinset =
      ({100, 101, 102, 103} : Finset Int) ∧
    ((previewEdges (scenarioA a b) 7).map EdgeRow.id).toFinset =
      ({10, 11, 12} : Finset Int) ∧
    blueIds (scenarioA a b) ≠ ({11} : Finset Int) := by
  cases a <;> cases b <;> decide

/-- C7: the assembler is idempotent up to result order — two runs against
the same unchanged storage (whose tables the store may serve in any row
order, modelled as permutations) produce edge and node sets that are equal
as sets. -/
theorem assemble_idempotent (db db' : Storage) (cid : Int)
    (hc : db.platform_configs.Perm db'.platform_configs)
    (ht : db.transfo_trees.Perm db'.transfo_trees)
    (hf : db.transfos.Perm db'.transfos)
    (hr : db.referentials.Perm db'.referentials) :
    (previewEdges db cid).toFinset = (previewEdges db' cid).toFinset ∧
    (previewNodes db cid).toFinset = (previewNodes db' cid).toFinset := by
  have hedge : ∀ r : EdgeRow, r ∈ previewEdges db cid ↔ r ∈ previewEdges db' cid := by
    intro r
    rw [mem_previewEdges, mem_previewEdges]
    simp only [hc.mem_iff, ht.mem_iff, hf.mem_iff]
  have hnode : ∀ r : Referential, r ∈ previewNodes db cid ↔ r ∈ previewNodes db' cid := by
    intro r
    rw [mem_previewNodes, mem_previewNodes]
    simp only [hr.mem_iff]
    constructor
    · rintro ⟨h1, e, he, h2⟩
      exact ⟨h1, e, (hedge e).mp he, h2⟩
    · rintro ⟨h1, e, he, h2⟩
      exact ⟨h1, e, (hedge e).mpr he, h2⟩
  constructor
  · ext r
    rw [List.mem_toFinset, List.mem_toFinset, hedge]
  · ext r
    rw [List.mem_toFinset, List.mem_toFinset, hnode]

/-- Storage for the C7 witness. -/
def dbC7 : Storage :=
  { platforms := []
    platform_configs := [⟨7, "cfg", "me", 1, [1, 2]⟩]
    transfo_trees := [⟨1, [10], false⟩, ⟨2, [11], true⟩]
    transfos := [⟨10, 100, 101, 0⟩, ⟨11, 101, 102, 0⟩]
    referentials := [⟨100, "a", true⟩, ⟨101, "b", false⟩, ⟨102, "c", false⟩] }

/-- The same storage as `dbC7` with every table's rows served in a
different order. -/
def dbC7p : Storage :=
  { platforms := []
    platform_configs := [⟨7, "cfg", "me", 1, [1, 2]⟩]
    transfo_trees := [⟨2, [11], true⟩, ⟨1, [10], false⟩]
    transfos := [⟨11, 101, 102, 0⟩, ⟨10, 100, 101, 0⟩]
    referentials := [⟨102, "c", false⟩, ⟨100, "a", true⟩, ⟨101, "b", false⟩] }

/-- C7 witness: the two runs over `dbC7` and its reordering `dbC7p` yield
equal edge and node sets. -/
theorem assemble_idempotent_witness :
    (previewEdges dbC7 7).toFinset = (previewEdges dbC7p 7).toFinset ∧
    (previewNodes dbC7 7).toFinset = (previewNodes dbC7p 7).toFinset :=
  assemble_idempotent dbC7 dbC7p 7 (by decide) (by decide) (by decide) (by decide)

/-- C10: GET and DELETE on a platform id abort with status 410 exactly when
the id matches no stored platform row; otherwise GET returns the matching
row(s) and DELETE returns an empty body with status 204 after removing
exactly the matching rows. -/
theorem one_platform_get_delete (db : Storage) (pid : Int) :
    (onePlatformGet db pid = Handler.abort 410 "Platform not found" ↔
      ∀ p ∈ db.platforms, p.id ≠ pid) ∧
    (onePlatformDelete db pid = Handler.abort 410 "Platform not found" ↔
      ∀ p ∈ db.platforms, p.id ≠ pid) ∧
    ((∃ p ∈ db.platforms, p.id = pid) →
      (∃ rows, onePlatformGet db pid = Handler.ok rows ∧
        ∀ q, q ∈ rows ↔ q ∈ db.platforms ∧ q.id = pid) ∧
      (∃ db2, onePlatformDelete db pid = Handler.ok (db2, "", 204) ∧
        ∀ q, q ∈ db2.platforms ↔ q ∈ db.platforms ∧ q.id ≠ pid)) := by
  have hempty : (db.platforms.filter (fun p => decide (p.id = pid))).isEmpty = true ↔
      ∀ p ∈ db.platforms, p.id ≠ pid := by
    rw [List.isEmpty_iff, List.filter_eq_nil_iff]
    simp
  have hlen : (db.platforms.filter (fun p => decide (p.id = pid))).length = 0 ↔
      ∀ p ∈ db.platforms, p.id ≠ pid := by
    rw [List.length_eq_zero, List.filter_eq_nil_iff]
    simp
  refine ⟨?_, ?_, ?_⟩
  · unfold onePlatformGet
    by_cases h : (db.platforms.filter (fun p => decide (p.id = pid))).isEmpty
    · simp only [h, if_true]
      exact ⟨fun _ => hempty.mp h, fun _ => trivial⟩
    · simp only [h, if_false]
      constructor
      · intro hx
        exact absurd hx (by simp)
      · intro hall
        exact absurd (hempty.mpr hall) h
  · unfold onePlatformDelete
    by_cases h : (db.platforms.filter (fun p => decide (p.id = pid))).length = 0
    · simp only [h, if_true]
      exact ⟨fun _ => hlen.mp h, fun _ => trivial⟩
    · simp only [h, if_false]
      constructor
      · intro hx
        exact absurd hx (by simp)
      · intro hall
        exact absurd (hlen.mpr hall) h
  · rintro ⟨p, hp, hpid⟩
    have hne : ¬ ∀ q ∈ db.platforms, q.id ≠ pid := fun hall => hall p hp hpid
    constructor
    · refine ⟨db.platforms.filter (fun q => decide (q.id = pid)), ?_, ?_⟩
      · unfold onePlatformGet
        have : ¬ (db.platforms.filter (fun q => decide (q.id = pid))).isEmpty = true :=
          fun h => hne (hempty.mp h)
        simp [this]
      · intro q
        simp [List.mem_filter]
    · refine ⟨{ db with platforms := db.platforms.filter (fun q => !decide (q.id = pid)) }, ?_, ?_⟩
      · unfold onePlatformDelete
        have : ¬ (db.platforms.filter (fun q => decide (q.id = pid))).length = 0 :=
          fun h => hne (hlen.mp h)
        simp [this]
      · intro q
        simp [List.mem_filter]

/-- Storage for the C10 witness: one platform with id 5. -/
def dbC10 : Storage :=
  { platforms := [⟨5, "stereopolis", "mobile mapping"⟩]
    platform_configs := []
    transfo_trees := []
    transfos := []
    referentials := [] }

/-- C10 witness: id 99 matches no row so both GET and DELETE abort 410; id
5 matches, so GET returns the row and DELETE returns `('', 204)`. -/
theorem one_platform_get_delete_witness :
    onePlatformGet dbC10 99 = Handler.abort 410 "Platform not found" ∧
    onePlatformDelete dbC10 99 = Handler.abort 410 "Platform not found" ∧
    ((∃ rows, onePlatformGet dbC10 5 = Handler.ok rows ∧
        ∀ q, q ∈ rows ↔ q ∈ dbC10.platforms ∧ q.id = 5) ∧
     (∃ db2, onePlatformDelete dbC10 5 = Handler.ok (db2, "", 204) ∧
        ∀ q, q ∈ db2.platforms ↔ q ∈ dbC10.platforms ∧ q.id ≠ 5)) :=
  ⟨(one_platform_get_delete dbC10 99).1.mpr (by decide),
   (one_platform_get_delete dbC10 99).2.1.mpr (by decide),
   (one_platform_get_delete dbC10 5).2.2 ⟨⟨5, "stereopolis", "mobile mapping"⟩, by decide, rfl⟩⟩
